import Mathlib

/-!
# Verification of the planning-poker session-state synchronization layer

Shallow embedding of the session-state model, the Fragment Transport
(`fragment-sharing.js`), the P2P coordinator (`PlanningPokerP2PApp`), the
cross-browser messaging transport (`CrossBrowserMessaging`), the Firebase
transport (`FirebaseMessaging`, validated variant) and the simplified
Firebase app (`PlanningPokerFirebaseApp`).

JavaScript `Map`s are embedded as insertion-ordered association lists
(`List (String × α)`) with `Map.set` / `Map.delete` / `Map.get` semantics.
Machine numbers (timestamps, versions) are embedded as `Nat`; every numeric
value the code manipulates is a non-negative integer and no arithmetic
overflows are relevant.  JavaScript falsy-coalescing `x || d` is embedded
per operand type (`jsOrNat`, identity `|| false` on `Bool`, `jsOrStr`).
-/

namespace Poker

/-- JS `n || d` on numbers: `0` is falsy. -/
def jsOrNat (n d : Nat) : Nat := if n = 0 then d else n

/-- JS `s || d` on strings: the empty string is falsy. -/
def jsOrStr (s d : String) : String := if s = "" then d else s

/-- `Map.get`-style lookup on an association list (first entry with the key). -/
def mlookup {α : Type} (m : List (String × α)) (k : String) : Option α :=
  match m with
  | [] => none
  | (k', v) :: rest => if k' = k then some v else mlookup rest k

/-- `Map.has`. -/
def mhas {α : Type} (m : List (String × α)) (k : String) : Bool :=
  (mlookup m k).isSome

/-- `Map.set`: replace the value in place if the key exists, else append. -/
def mset {α : Type} (m : List (String × α)) (k : String) (v : α) :
    List (String × α) :=
  match m with
  | [] => [(k, v)]
  | (k', v') :: rest =>
    if k' = k then (k, v) :: rest else (k', v') :: mset rest k v

/-- `Map.delete`: remove every entry with the key (maps hold it at most once). -/
def mdelete {α : Type} (m : List (String × α)) (k : String) :
    List (String × α) :=
  m.filter (fun p => decide (p.1 ≠ k))

/-- Keys of a map, in insertion order. -/
def mkeys {α : Type} (m : List (String × α)) : List String := m.map Prod.fst

/-- JS `String.prototype.trim` whitespace. -/
def isJsWs (c : Char) : Bool :=
  c = ' ' || c = '\t' || c = '\n' || c = '\r' ||
  c = '\x0b' || c = '\x0c' || c = ' ' || c = '﻿'

/-- JS `String.prototype.trim`. -/
def jsTrim (s : String) : String :=
  ⟨((s.data.dropWhile isJsWs).reverse.dropWhile isJsWs).reverse⟩

section FragmentModel

/-- A participant record as the P2P coordinator and the Fragment Transport
hold it (`{id, name, isHost}`, from `createSession` / `expandParticipants`). -/
structure Participant where
  id : String
  name : String
  isHost : Bool
  deriving Repr, DecidableEq

/-- A task record (`{id, title, description, createdAt, createdBy}`). -/
structure Task where
  id : String
  title : String
  description : String
  createdAt : Nat
  createdBy : String
  deriving Repr, DecidableEq

/-- The session-state object the Fragment Transport serializes
(`FragmentSharingManager.currentState`): session ID, version, timestamp,
participants map, task list, current task, votes map, and the two flags. -/
structure FragState where
  sessionId : String
  version : Nat
  timestamp : Nat
  participants : List (String × Participant)
  tasks : List Task
  currentTaskId : Option String
  votes : List (String × String)
  votingEnabled : Bool
  votesRevealed : Bool
  deriving Repr, DecidableEq

/-- Minified participant entry `{i, n, h}` (`compressParticipants`). -/
structure MinPart where
  i : String
  n : String
  h : Bool
  deriving Repr, DecidableEq

/-- Minified task entry `{i, t, d, c, b}` (`compressTasks`). -/
structure MinTask where
  i : String
  t : String
  d : String
  c : Nat
  b : String
  deriving Repr, DecidableEq

/-- The minimal state object built by `compressState` before JSON/base64
encoding.  The source deletes `undefined`/`null` top-level keys; of the nine
keys only `ct` (`currentTaskId`) can be null, so it is the one `Option`. -/
structure MinState where
  sid : String
  v : Nat
  ts : Nat
  p : List MinPart
  t : List MinTask
  ct : Option String
  vt : List (String × String)
  ve : Bool
  vr : Bool
  deriving Repr, DecidableEq

/-- `compressParticipants`: map entries to `{i: id, n: name, h: isHost || false}`. -/
def compressParticipants (participants : List (String × Participant)) :
    List MinPart :=
  participants.map (fun p => ⟨p.1, p.2.name, p.2.isHost || false⟩)

/-- `expandParticipants`: rebuild the map keyed by `p.i` with
`{id: p.i, name: p.n, isHost: p.h || false}`. -/
def expandParticipants (compressed : List MinPart) :
    List (String × Participant) :=
  compressed.map (fun p => (p.i, ⟨p.i, p.n, p.h || false⟩))

/-- `compressTasks`. -/
def compressTasks (tasks : List Task) : List MinTask :=
  tasks.map (fun t => ⟨t.id, t.title, jsOrStr t.description "", t.createdAt, t.createdBy⟩)

/-- `expandTasks`. -/
def expandTasks (compressed : List MinTask) : List Task :=
  compressed.map (fun t => ⟨t.i, t.t, jsOrStr t.d "", t.c, t.b⟩)

/-- `compressVotes`: `Array.from(votes.entries()).map(([u,v]) => [u,v])`. -/
def compressVotes (votes : List (String × String)) : List (String × String) :=
  votes.map (fun p => (p.1, p.2))

/-- `expandVotes`: `new Map(compressed)` (source maps have unique keys, so the
entry list itself is the map). -/
def expandVotes (compressed : List (String × String)) :
    List (String × String) :=
  compressed

/-- The minimal state object of `compressState` (before text encoding). -/
def minifyState (s : FragState) : MinState :=
  { sid := s.sessionId
    v := s.version
    ts := s.timestamp
    p := compressParticipants s.participants
    t := compressTasks s.tasks
    ct := s.currentTaskId
    vt := compressVotes s.votes
    ve := s.votingEnabled
    vr := s.votesRevealed }

/-- `decompressState`'s expansion of the parsed minimal object back to a full
state.  `now` is the `Date.now()` used when `ts` is falsy. -/
def expandState (now : Nat) (m : MinState) : FragState :=
  { sessionId := m.sid
    version := jsOrNat m.v 1
    timestamp := jsOrNat m.ts now
    participants := expandParticipants m.p
    tasks := expandTasks m.t
    currentTaskId := m.ct
    votes := expandVotes m.vt
    votingEnabled := m.ve || false
    votesRevealed := m.vr || false }

end FragmentModel

section TextLayer

/-- JSON values produced by `compressState` (all numbers in the state are
non-negative integers). -/
inductive Json where
  | str (s : String)
  | num (n : Nat)
  | bool (b : Bool)
  | arr (xs : List Json)
  | obj (fields : List (String × Json))

/-- One character of `JSON.stringify`'s string escaping. -/
def jsonEscChar (c : Char) : List Char :=
  if c = '"' then ['\\', '"']
  else if c = '\\' then ['\\', '\\']
  else if c = '\x08' then ['\\', 'b']
  else if c = '\t' then ['\\', 't']
  else if c = '\n' then ['\\', 'n']
  else if c = '\x0c' then ['\\', 'f']
  else if c = '\r' then ['\\', 'r']
  else if c.toNat < 0x20 then
    ['\\', 'u', '0', '0', Nat.toDigits 16 c.toNat |>.headI,
      (Nat.toDigits 16 c.toNat).getLastD '0']
  else [c]

/-- `JSON.stringify` string escaping (non-ASCII characters pass through). -/
def jsonEscape (s : String) : String :=
  ⟨s.data.foldr (fun c acc => jsonEscChar c ++ acc) []⟩

mutual

/-- `JSON.stringify`, compact form (no whitespace), as the source calls it. -/
def Json.stringify : Json → String
  | .str s => "\"" ++ jsonEscape s ++ "\""
  | .num n => toString n
  | .bool b => if b then "true" else "false"
  | .arr xs => "[" ++ stringifyArr xs ++ "]"
  | .obj fs => "\x7b" ++ stringifyObj fs ++ "\x7d"

/-- Comma-joined stringification of a JSON array's elements. -/
def stringifyArr : List Json → String
  | [] => ""
  | [x] => Json.stringify x
  | x :: y :: xs => Json.stringify x ++ "," ++ stringifyArr (y :: xs)

/-- Comma-joined stringification of a JSON object's fields. -/
def stringifyObj : List (String × Json) → String
  | [] => ""
  | [(k, v)] => "\"" ++ jsonEscape k ++ "\":" ++ Json.stringify v
  | (k, v) :: f :: fs =>
      "\"" ++ jsonEscape k ++ "\":" ++ Json.stringify v ++ "," ++
        stringifyObj (f :: fs)

end

/-- The JSON shape of a minified participant `{i, n, h}`. -/
def MinPart.toJson (p : MinPart) : Json :=
  .obj [("i", .str p.i), ("n", .str p.n), ("h", .bool p.h)]

/-- The JSON shape of a minified task `{i, t, d, c, b}`. -/
def MinTask.toJson (t : MinTask) : Json :=
  .obj [("i", .str t.i), ("t", .str t.t), ("d", .str t.d),
        ("c", .num t.c), ("b", .str t.b)]

/-- The JSON object `compressState` passes to `JSON.stringify`: the minimal
state with `undefined`/`null` keys removed (only `ct` can be null). -/
def MinState.toJson (m : MinState) : Json :=
  .obj ([("sid", .str m.sid), ("v", .num m.v), ("ts", .num m.ts),
         ("p", .arr (m.p.map MinPart.toJson)),
         ("t", .arr (m.t.map MinTask.toJson))] ++
        (match m.ct with
         | some ct => [("ct", Json.str ct)]
         | none => []) ++
        [("vt", .arr (m.vt.map (fun p => .arr [.str p.1, .str p.2]))),
         ("ve", .bool m.ve), ("vr", .bool m.vr)])

/-- `btoa` accepts only Latin-1 input (code points ≤ 255) and throws an
`InvalidCharacterError` otherwise; `compressState` catches that and returns
`null`. -/
def isLatin1 (s : String) : Bool :=
  s.data.all (fun c => c.toNat ≤ 255)

/-- Length of the URL-safe token for a Latin-1 JSON string of `n` bytes:
`btoa` yields `4 * ⌈n / 3⌉` characters and `compressState` strips the
`(3 - n % 3) % 3` padding characters (`.replace(/=/g, '')`). -/
def b64TokenLen (n : Nat) : Nat :=
  4 * ((n + 2) / 3) - (3 - n % 3) % 3

/-- The serialized JSON text `compressState` feeds to `btoa`. -/
def stateJsonText (s : FragState) : String :=
  (minifyState s).toJson.stringify

/-- `compressState`: build the minimal object, stringify, base64-encode with
URL-safe substitutions.  The JSON/base64 text wrapping is the browser's
(`JSON.stringify`/`btoa`), an injective encoding reversed exactly by
`atob`/`JSON.parse`; the token is therefore represented by the minimal state
it encodes.  `btoa`'s Latin-1 domain limit — the one way this pipeline can
fail — is checked on the real serialized text. -/
def compressState (s : FragState) : Option MinState :=
  if isLatin1 (stateJsonText s) then some (minifyState s) else none

/-- `decompressState` on a token that base64-decodes and parses back to the
minimal object `m` (`atob`/`JSON.parse` invert the encoding above):
re-expansion to the full state.  `now` is `Date.now()`. -/
def decompressState (now : Nat) (m : MinState) : FragState :=
  expandState now m

/-- Character count of the URL-safe token `compressState` produces (valid for
Latin-1 text, where `btoa` sees one byte per character). -/
def tokenLength (s : FragState) : Nat :=
  b64TokenLen (stateJsonText s).length

/-- `getURLLength`: `baseLen` is the length of
`${origin}${pathname}` and `"#state=".length = 7`. -/
def urlLength (baseLen : Nat) (s : FragState) : Nat :=
  baseLen + 7 + tokenLength s

/-- `isStateTooLarge`: the conservative 2000-character URL ceiling. -/
def isStateTooLarge (baseLen : Nat) (s : FragState) : Bool :=
  decide (2000 < urlLength baseLen s)

/-- `createSimplifiedState`: the reduced-fidelity projection — titles
truncated to 50 characters (`substring(0, 50)`), descriptions emptied, votes
kept only when revealed.  Defined in the source but never invoked by
`updateURL`/`generateShareableURL`. -/
def createSimplifiedState (s : FragState) : FragState :=
  { s with
    tasks := s.tasks.map (fun t =>
      { id := t.id, title := ⟨t.title.data.take 50⟩, description := "",
        createdAt := t.createdAt, createdBy := t.createdBy })
    votes := if s.votesRevealed then s.votes else [] }

/-- `FragmentSharingManager`'s own mutable fields. -/
structure FragmentManager where
  currentState : Option FragState
  isHost : Bool
  sessionId : Option String
  deriving Repr, DecidableEq

/-- `FragmentSharingManager.joinSession`, given the state parsed from the
URL fragment (`parseFragmentURL`; `none` for a malformed token): throws on
`null`, otherwise installs the decoded state unconditionally and hands it to
`onStateUpdate`.  Returns the updated manager and the state delivered. -/
def fragJoinSession (mgr : FragmentManager) (parsed : Option FragState) :
    Except String (FragmentManager × FragState) :=
  match parsed with
  | none => .error "Invalid session URL"
  | some st =>
      .ok
        ({ mgr with
            isHost := false
            sessionId := some st.sessionId
            currentState := some st },
          st)

/-- `FragmentSharingManager.loadFromCurrentURL`, given the parse result of
`window.location.href`: on success installs the state unconditionally and
delivers it. -/
def loadFromCurrentURL (mgr : FragmentManager) (parsed : Option FragState) :
    FragmentManager × Option FragState :=
  match parsed with
  | none => (mgr, none)
  | some st =>
      ({ mgr with currentState := some st, sessionId := some st.sessionId },
       some st)

end TextLayer

section Coordinator

/-- The spec's error taxonomy for locally rejected operations. -/
inductive PokerError where
  | invalidSessionId
  | missingSessionId
  | missingName
  | invalidVote
  | votingClosed
  | sessionNotFound
  deriving Repr, DecidableEq

/-- The P2P coordinator's session-state fields
(`PlanningPokerP2PApp`).  `currentUser` is the caller's own record (set on
create/join, present while a session is active). -/
structure P2PState where
  currentUser : Participant
  isHost : Bool
  participants : List (String × Participant)
  tasks : List Task
  currentTaskId : Option String
  votes : List (String × String)
  votingEnabled : Bool
  votesRevealed : Bool
  deriving Repr, DecidableEq

/-- `PlanningPokerP2PApp.createSession` (state fields only): the creator is
marked host and put in the fresh participants map; the constructor
initialises everything else empty/false. -/
def p2pCreateSession (userId username : String) : P2PState :=
  let user : Participant := ⟨userId, username, true⟩
  { currentUser := user
    isHost := true
    participants := mset [] userId user
    tasks := []
    currentTaskId := none
    votes := []
    votingEnabled := false
    votesRevealed := false }

/-- `PlanningPokerP2PApp.joinSession` (state fields only, after a transport
accepted the join): the joiner is added to the otherwise fresh map with
`isHost: false`. -/
def p2pJoinSession (userId username : String) : P2PState :=
  let user : Participant := ⟨userId, username, false⟩
  { currentUser := user
    isHost := false
    participants := mset [] userId user
    tasks := []
    currentTaskId := none
    votes := []
    votingEnabled := false
    votesRevealed := false }

/-- `PlanningPokerP2PApp.handleUserJoined`: `participants.set(user.id, user)`
(the broadcast of a state-sync by the host has no effect on local state). -/
def handleUserJoined (s : P2PState) (user : Participant) : P2PState :=
  { s with participants := mset s.participants user.id user }

/-- `PlanningPokerP2PApp.handleUserLeft`: `participants.delete(userId)` and
`votes.delete(userId)`. -/
def handleUserLeft (s : P2PState) (userId : String) : P2PState :=
  { s with
    participants := mdelete s.participants userId
    votes := mdelete s.votes userId }

/-- `PlanningPokerP2PApp.selectTask`: non-hosts return immediately;
the host sets the current task, enables voting, clears the reveal flag and
the votes, then broadcasts. -/
def p2pSelectTask (s : P2PState) (taskId : String) : P2PState :=
  if !s.isHost then s
  else
    { s with
      currentTaskId := some taskId
      votingEnabled := true
      votesRevealed := false
      votes := [] }

/-- Outcome of a local `vote` call. -/
inductive VoteOutcome where
  | rejected
  | cast (value : String)
  deriving Repr, DecidableEq

/-- `PlanningPokerP2PApp.vote`: rejected (early return, nothing recorded, no
broadcast) when voting is disabled, votes are revealed, or no task is
selected; otherwise the caller's vote is stored (overwriting) and
broadcast.  No validation of the value is performed. -/
def p2pVote (s : P2PState) (value : String) : P2PState × VoteOutcome :=
  if !s.votingEnabled || s.votesRevealed || s.currentTaskId = none then
    (s, .rejected)
  else
    ({ s with votes := mset s.votes s.currentUser.id value }, .cast value)

/-- `PlanningPokerP2PApp.handleFragmentStateUpdate`: the decoded fragment
state replaces the local roster, tasks, current task, votes and flags
unconditionally — no version comparison is performed anywhere on this
path. -/
def handleFragmentStateUpdate (s : P2PState) (st : FragState) : P2PState :=
  { s with
    participants := st.participants
    tasks := st.tasks
    currentTaskId := st.currentTaskId
    votes := st.votes
    votingEnabled := st.votingEnabled || false
    votesRevealed := st.votesRevealed || false }

/-- The inbound messages of claim C6's operation alphabet that touch the
roster directly (`processMessage` cases `user-joined` / `user-left`). -/
inductive P2POp where
  | userJoined (user : Participant)
  | userLeft (userId : String)

/-- Apply one inbound message to the coordinator state. -/
def applyOp (s : P2PState) : P2POp → P2PState
  | .userJoined u => handleUserJoined s u
  | .userLeft uid => handleUserLeft s uid

/-- Apply a sequence of inbound messages in arrival order. -/
def applyOps (s : P2PState) (ops : List P2POp) : P2PState :=
  ops.foldl applyOp s

/-- Number of roster entries with `isHost = true`. -/
def countHosts (m : List (String × Participant)) : Nat :=
  (m.filter (fun p => p.2.isHost)).length

end Coordinator

section CrossBrowser

/-- A transport-level participant record of `CrossBrowserMessaging`
(`{id, lastSeen, isHost}`). -/
structure CbmPart where
  id : String
  lastSeen : Nat
  isHost : Bool
  deriving Repr, DecidableEq

/-- `CrossBrowserMessaging.checkParticipantHealth`: every participant other
than the caller whose `lastSeen` is more than 10 s old is deleted from the
transport map and reported to the coordinator as a `user-left{timeout}`
message.  Returns the surviving map and the reported user IDs. -/
def checkParticipantHealth (selfId : String) (now : Nat)
    (m : List (String × CbmPart)) :
    List (String × CbmPart) × List String :=
  (m.filter (fun p => decide (p.1 = selfId) || decide (now - p.2.lastSeen ≤ 10000)),
   (m.filter (fun p => decide (p.1 ≠ selfId) && decide (10000 < now - p.2.lastSeen))).map
     Prod.fst)

end CrossBrowser

section Firebase

/-- A remote participant record
(`sessions/{id}/participants/{participantId}`). -/
structure FbParticipant where
  name : String
  isHost : Bool
  joinedAt : Nat
  lastSeen : Nat
  connected : Bool
  deriving Repr, DecidableEq

/-- A remote vote record (`sessions/{id}/votes/{participantId}`,
validated-variant shape `{value, timestamp}`). -/
structure FbVote where
  value : String
  timestamp : Nat
  deriving Repr, DecidableEq

/-- The `info` subtree of a remote session document. -/
structure FbInfo where
  hostId : String
  createdAt : Nat
  currentTaskId : Option String
  votingEnabled : Bool
  votesRevealed : Bool
  deriving Repr, DecidableEq

/-- A remote session document (`sessions/{id}`). -/
structure RemoteDoc where
  info : FbInfo
  participants : List (String × FbParticipant)
  tasks : List (String × Task)
  votes : List (String × FbVote)
  deriving Repr, DecidableEq

/-- `FirebaseMessaging`'s own identity fields. -/
structure FbMessaging where
  sessionId : Option String
  userId : Option String
  isHost : Bool
  deriving Repr, DecidableEq

/-- The session-ID format check of the validated `FirebaseMessaging`
(`/^[A-Z0-9]{6}$/.test(sessionId)`). -/
def validSessionIdFormat (s : String) : Bool :=
  s.length = 6 &&
    s.data.all (fun c => ('A' ≤ c && c ≤ 'Z') || ('0' ≤ c && c ≤ '9'))

/-- The fixed card set accepted by the validated
`FirebaseMessaging.castVote`. -/
def allowedVotes : List String :=
  ["1", "2", "3", "5", "8", "13", "21", "?", "☕"]

/-- The validated `FirebaseMessaging.castVote`: values outside the card set
are rejected (`Invalid vote value`) before anything else; with a missing
session or user ID the call returns without writing; otherwise
`{value, timestamp}` is written at `votes/{userId}`, overwriting any
previous vote.  Returns the remote document and whether a write happened. -/
def fbCastVote (fb : FbMessaging) (doc : RemoteDoc) (vote : String)
    (ts : Nat) : Except PokerError (RemoteDoc × Bool) :=
  if vote ∉ allowedVotes then .error .invalidVote
  else
    match fb.sessionId, fb.userId with
    | some _, some uid =>
        .ok ({ doc with votes := mset doc.votes uid ⟨vote, ts⟩ }, true)
    | _, _ => .ok (doc, false)

/-- Firebase Realtime Database client-side key validation: object keys may
not contain `.`, `#`, `$`, `/`, `[` or `]`; `set()` throws on any such key
before anything is written. -/
def validFirebaseKey (k : String) : Bool :=
  k.data.all (fun c =>
    !(c = '.' || c = '#' || c = '$' || c = '/' || c = '[' || c = ']'))

/-- The keys of the multi-path object the legacy
`FirebaseMessaging.selectTask` builds. -/
def legacySelectTaskKeys : List String :=
  ["info/currentTaskId", "info/votingEnabled", "info/votesRevealed", "votes"]

/-- The legacy `FirebaseMessaging.selectTask` (host-only): it passes the
multi-path object to `set()` on `sessions/{id}` instead of `update()`.
`set()` validates keys client-side and throws on the `/` in
`info/currentTaskId` before any write, so the call fails and the remote
document is untouched.  (The `none` branch is unreachable for these keys;
had they been accepted, `set()` would have replaced the whole session node
with the flat object rather than applying path updates.) -/
def fbSelectTaskLegacy (fb : FbMessaging) (doc : RemoteDoc)
    (taskId : String) : Except String RemoteDoc :=
  if !fb.isHost then .ok doc
  else
    match legacySelectTaskKeys.find? (fun k => !validFirebaseKey k) with
    | some k => .error ("Invalid key " ++ k)
    | none => .ok doc

/-- The validated `FirebaseMessaging.selectTask` of the newer variant
(`src/unnamed/part_002`, host-only): one multi-location `update()` setting
`info/currentTaskId`, `info/votingEnabled = true`,
`info/votesRevealed = false` and clearing `votes`. -/
def fbSelectTask (fb : FbMessaging) (doc : RemoteDoc) (taskId : String) :
    RemoteDoc :=
  if !fb.isHost then doc
  else
    { doc with
      info := { doc.info with
        currentTaskId := some taskId
        votingEnabled := true
        votesRevealed := false }
      votes := [] }

/-- The per-record effect of `disconnect`'s two writes
(`participants/{uid}/connected = false`, `participants/{uid}/lastSeen`). -/
def setDisconnected (uid : String) (ts : Nat) :
    String × FbParticipant → String × FbParticipant
  | (k, v) =>
    if k = uid then (k, { v with connected := false, lastSeen := ts })
    else (k, v)

/-- The remote effect of `FirebaseMessaging.disconnect` on the session
document: the caller's own `connected` flag is set to `false` and `lastSeen`
refreshed; no participant record is removed. -/
def fbDisconnectUpdate (doc : RemoteDoc) (uid : String) (ts : Nat) :
    RemoteDoc :=
  { doc with participants := doc.participants.map (setDisconnected uid ts) }

end Firebase

section SimplifiedApp

/-- A participant record as the simplified Firebase app's snapshot carries it
(`convertFirebaseToAppState`). -/
structure AppParticipant where
  id : String
  name : String
  isHost : Bool
  connected : Bool
  lastSeen : Nat
  deriving Repr, DecidableEq

/-- The snapshot delivered to `PlanningPokerFirebaseApp.handleStateChange`. -/
structure AppSnapshot where
  sessionId : String
  participants : List (String × AppParticipant)
  votes : List (String × String)
  votingEnabled : Bool
  votesRevealed : Bool
  deriving Repr, DecidableEq

/-- The simplified Firebase coordinator's local state
(`PlanningPokerFirebaseApp`). -/
structure FbAppState where
  currentUser : Option Participant
  isHost : Bool
  participants : List (String × AppParticipant)
  votes : List (String × String)
  votingEnabled : Bool
  votesRevealed : Bool
  hasMessaging : Bool
  deriving Repr, DecidableEq

/-- `PlanningPokerFirebaseApp.handleStateChange`: adopt the snapshot
(`votingEnabled !== false` keeps the flag, defaulting to true), then
defensively re-insert the current user — with their known name, the local
host flag, `connected: true` and a fresh `lastSeen` — if the snapshot's
roster omits them. -/
def handleStateChange (app : FbAppState) (st : AppSnapshot) (now : Nat) :
    FbAppState :=
  let base := { app with
    participants := st.participants
    votes := st.votes
    votingEnabled := st.votingEnabled
    votesRevealed := st.votesRevealed || false }
  match app.currentUser with
  | none => base
  | some u =>
      if !mhas base.participants u.id then
        { base with
          participants := mset base.participants u.id ⟨u.id, u.name, app.isHost, true, now⟩ }
      else base

/-- `PlanningPokerFirebaseApp.vote`: early return — nothing written locally
or remotely — when votes are revealed or no transport is attached; otherwise
the value is handed to `castVote`.  Local votes are never mutated here. -/
def fbAppVote (app : FbAppState) (value : String) :
    FbAppState × VoteOutcome :=
  if app.votesRevealed || !app.hasMessaging then (app, .rejected)
  else (app, .cast value)

/-- `PlanningPokerFirebaseApp.joinSession` input validation composed with the
validated transport's format check: an empty name is rejected first, an
empty session ID next ("Please enter a session ID"), and a non-matching
session ID makes `initializeAsParticipant` throw before its first remote
call (`ensureAuthenticated`).  Both fields are `.trim()`ed before any
check. -/
inductive JoinOutcome where
  | rejected (e : PokerError)
  | formatAccepted (sessionId : String)
  deriving Repr, DecidableEq

/-- The validation prefix of `joinSession` (everything that happens before a
transport call can be attempted). -/
def joinSessionValidate (usernameInput sessionIdInput : String) :
    JoinOutcome :=
  let username := jsTrim usernameInput
  let sessionId := jsTrim sessionIdInput
  if username = "" then .rejected .missingName
  else if sessionId = "" then .rejected .missingSessionId
  else if !validSessionIdFormat sessionId then .rejected .invalidSessionId
  else .formatAccepted sessionId

end SimplifiedApp

section Predicates

/-- Well-formedness of a fragment-shared state: the participants map is keyed
by the records' own IDs (true of every map the app builds), and version and
timestamp are non-zero (the code creates them as `1`/`Date.now()` and only
increments; `0` would be coerced away by `|| 1` / `|| Date.now()` on
decode). -/
def FragState.wf (s : FragState) : Prop :=
  (∀ p ∈ s.participants, p.1 = p.2.id) ∧ s.version ≠ 0 ∧ s.timestamp ≠ 0

/-- The roster-invariant of the creating coordinator: the creator's record is
at its key, every other entry is a non-host, and keys are unique. -/
def HostInv (c : Participant) (m : List (String × Participant)) : Prop :=
  mlookup m c.id = some c ∧
  (∀ p ∈ m, p.1 ≠ c.id → p.2.isHost = false) ∧
  (mkeys m).Nodup

/-- Inbound messages that do not displace the creator: joined users are
non-hosts with a fresh ID, and `user-left` never names the creator. -/
def opOk (c : Participant) : P2POp → Bool
  | .userJoined u => !u.isHost && u.id != c.id
  | .userLeft uid => uid != c.id

/-- What `selectTask` must do to the local coordinator state (claim C3). -/
def SelectTaskResult (old new : P2PState) (tid : String) : Prop :=
  new.currentTaskId = some tid ∧ new.votingEnabled = true ∧
  new.votesRevealed = false ∧ new.votes = [] ∧
  new.participants = old.participants ∧ new.tasks = old.tasks ∧
  new.currentUser = old.currentUser ∧ new.isHost = old.isHost

/-- What `selectTask` must do to the remote session document (claim C3). -/
def FbSelectTaskResult (old new : RemoteDoc) (tid : String) : Prop :=
  new.info.currentTaskId = some tid ∧ new.info.votingEnabled = true ∧
  new.info.votesRevealed = false ∧ new.votes = [] ∧
  new.participants = old.participants ∧ new.tasks = old.tasks ∧
  new.info.hostId = old.info.hostId ∧ new.info.createdAt = old.info.createdAt

end Predicates

section Examples

/-- A host participant record. -/
def hostU : Participant := ⟨"h1", "Ann", true⟩

/-- A non-host participant record. -/
def partU : Participant := ⟨"p1", "Bob", false⟩

/-- A demo task. -/
def demoTask : Task := ⟨"t1", "Login flow", "", 10, "h1"⟩

/-- A participant-side coordinator state with voting open. -/
def openState : P2PState :=
  { currentUser := partU
    isHost := false
    participants := [("h1", hostU), ("p1", partU)]
    tasks := [demoTask]
    currentTaskId := some "t1"
    votes := []
    votingEnabled := true
    votesRevealed := false }

/-- The same session seen by the host. -/
def hostState : P2PState :=
  { openState with currentUser := hostU, isHost := true }

/-- A state after the host revealed votes. -/
def revealedState : P2PState :=
  { openState with votesRevealed := true, votes := [("h1", "8")] }

/-- A demo remote session document. -/
def demoDoc : RemoteDoc :=
  { info := ⟨"h1", 1, none, true, false⟩
    participants := [("h1", ⟨"Ann", true, 1, 2, true⟩),
                     ("p1", ⟨"Bob", false, 3, 4, true⟩)]
    tasks := []
    votes := [("h1", ⟨"5", 6⟩)] }

/-- Transport identity of the non-host demo participant. -/
def demoFb : FbMessaging := ⟨some "ABC123", some "p1", false⟩

/-- Transport identity of the demo host. -/
def demoFbHost : FbMessaging := ⟨some "ABC123", some "h1", true⟩

/-- Simplified Firebase app state of participant `p1`. -/
def demoApp : FbAppState :=
  { currentUser := some partU
    isHost := false
    participants := []
    votes := []
    votingEnabled := true
    votesRevealed := false
    hasMessaging := true }

/-- The same app state after a reveal. -/
def revealedApp : FbAppState := { demoApp with votesRevealed := true }

/-- A remote snapshot that omits participant `p1`. -/
def demoSnapshot : AppSnapshot :=
  { sessionId := "ABC123"
    participants := [("h1", ⟨"h1", "Ann", true, true, 9⟩)]
    votes := [("h1", "8")]
    votingEnabled := true
    votesRevealed := false }

/-- A small well-formed fragment state (Latin-1 content only). -/
def sC1 : FragState :=
  { sessionId := "ABC123"
    version := 2
    timestamp := 5
    participants := [("u1", ⟨"u1", "Ann", true⟩)]
    tasks := [⟨"t1", "Login", "desc", 3, "u1"⟩]
    currentTaskId := some "t1"
    votes := [("u1", "5")]
    votingEnabled := true
    votesRevealed := false }

/-- The same state with a coffee-card vote: `JSON.stringify` emits `☕`
(U+2615) raw and `btoa` throws on it. -/
def sCoffee : FragState := { sC1 with votes := [("u1", "☕")] }

/-- A 2100-character task description. -/
def longDesc : String := ⟨List.replicate 2100 'a'⟩

/-- A fragment state whose encoding is far beyond the 2000-character URL
ceiling. -/
def sBig : FragState :=
  { sC1 with tasks := [⟨"t1", "Login", longDesc, 3, "u1"⟩] }

/-- The demo state at version 5. -/
def v5State : FragState := { sC1 with version := 5 }

/-- The demo state at version 1. -/
def v1State : FragState := { sC1 with version := 1 }

/-- A fragment manager already holding the version-5 state. -/
def mgr5 : FragmentManager := ⟨some v5State, true, some "ABC123"⟩

end Examples

/-! ## Map and helper lemmas -/

theorem mlookup_mset_self {α : Type} (m : List (String × α)) (k : String)
    (v : α) : mlookup (mset m k v) k = some v := by
  induction m with
  | nil => simp [mset, mlookup]
  | cons p rest ih =>
      obtain ⟨k', v'⟩ := p
      by_cases h : k' = k <;> simp [mset, mlookup, h, ih]

theorem mlookup_mset_ne {α : Type} (m : List (String × α)) (k k' : String)
    (v : α) (h : k' ≠ k) : mlookup (mset m k v) k' = mlookup m k' := by
  induction m with
  | nil =>
      simp only [mset, mlookup]
      rw [if_neg (fun he => h he.symm)]
  | cons p rest ih =>
      obtain ⟨k₀, v₀⟩ := p
      by_cases h0 : k₀ = k
      · subst h0
        simp only [mset, if_pos rfl, mlookup]
        rw [if_neg (fun he => h he.symm), if_neg (fun he => h he.symm)]
      · simp only [mset, if_neg h0, mlookup]
        by_cases h1 : k₀ = k'
        · rw [if_pos h1, if_pos h1]
        · rw [if_neg h1, if_neg h1, ih]

theorem mlookup_mdelete_self {α : Type} (m : List (String × α)) (k : String) :
    mlookup (mdelete m k) k = none := by
  induction m with
  | nil => rfl
  | cons p rest ih =>
      obtain ⟨k₀, v₀⟩ := p
      simp only [mdelete, List.filter_cons] at ih ⊢
      by_cases h : k₀ = k
      · simpa [h] using ih
      · simpa [h, mlookup] using ih

theorem mlookup_mdelete_ne {α : Type} (m : List (String × α)) (k k' : String)
    (h : k' ≠ k) : mlookup (mdelete m k) k' = mlookup m k' := by
  induction m with
  | nil => rfl
  | cons p rest ih =>
      obtain ⟨k₀, v₀⟩ := p
      simp only [mdelete, List.filter_cons] at ih ⊢
      by_cases h0 : k₀ = k
      · subst h0
        have hne : ¬ k₀ = k' := fun he => h (he.symm)
        simpa [mlookup, hne] using ih
      · simp only [h0, decide_not, mlookup]
        by_cases h1 : k₀ = k'
        · simp [h1, mlookup]
        · simpa [h1, mlookup] using ih

theorem mem_mset {α : Type} (m : List (String × α)) (k : String) (v : α)
    (p : String × α) (hp : p ∈ mset m k v) : p = (k, v) ∨ p ∈ m := by
  induction m with
  | nil => simpa [mset] using hp
  | cons q rest ih =>
      obtain ⟨k₀, v₀⟩ := q
      by_cases h : k₀ = k
      · simp [mset, h] at hp
        rcases hp with hp | hp
        · exact .inl (by simp [hp])
        · exact .inr (by simp [hp])
      · simp [mset, h] at hp
        rcases hp with hp | hp
        · exact .inr (by simp [hp])
        · rcases ih hp with hh | hh
          · exact .inl hh
          · exact .inr (by simp [hh])

theorem mkeys_mset {α : Type} (m : List (String × α)) (k : String) (v : α) :
    mkeys (mset m k v) =
      if k ∈ mkeys m then mkeys m else mkeys m ++ [k] := by
  induction m with
  | nil => simp [mset, mkeys]
  | cons q rest ih =>
      obtain ⟨k₀, v₀⟩ := q
      by_cases h : k₀ = k
      · subst h
        simp [mset, mkeys]
      · have hne : ¬ k = k₀ := fun he => h he.symm
        simp only [mset, if_neg h, mkeys, List.map_cons, List.mem_cons, hne,
          false_or]
        simp only [mkeys] at ih
        rw [ih]
        by_cases h2 : k ∈ List.map Prod.fst rest <;> simp [h2]

theorem mkeys_mset_nodup {α : Type} (m : List (String × α)) (k : String)
    (v : α) (h : (mkeys m).Nodup) : (mkeys (mset m k v)).Nodup := by
  rw [mkeys_mset]
  by_cases h2 : k ∈ mkeys m
  · simpa [h2] using h
  · simp [h2, List.nodup_append, h]

theorem mkeys_mdelete_sublist {α : Type} (m : List (String × α))
    (k : String) : (mkeys (mdelete m k)).Sublist (mkeys m) :=
  (List.filter_sublist m).map Prod.fst

theorem jsOrStr_empty (s : String) : jsOrStr s "" = s := by
  unfold jsOrStr; split <;> simp_all

theorem jsonEscChar_safe (c : Char) (h1 : c ≠ '"') (h2 : c ≠ '\\')
    (h3 : 0x20 ≤ c.toNat) : jsonEscChar c = [c] := by
  unfold jsonEscChar
  split_ifs with a b cc d e f g <;> simp_all <;> omega

theorem jsonEscape_safe (s : String)
    (h : ∀ c ∈ s.data, c ≠ '"' ∧ c ≠ '\\' ∧ 0x20 ≤ c.toNat) :
    jsonEscape s = s := by
  obtain ⟨l⟩ := s
  unfold jsonEscape
  simp only at h ⊢
  congr 1
  induction l with
  | nil => rfl
  | cons c cs ih =>
      simp only [List.foldr_cons]
      have hc := h c (by simp)
      rw [jsonEscChar_safe c hc.1 hc.2.1 hc.2.2]
      simp only [List.cons_append, List.nil_append]
      rw [ih (fun d hd => h d (by simp [hd]))]

theorem jsonEscape_longDesc : jsonEscape longDesc = longDesc := by
  apply jsonEscape_safe
  intro c hc
  rw [longDesc] at hc
  simp only [List.mem_replicate] at hc
  rw [hc.2]
  refine ⟨by decide, by decide, by decide⟩

theorem longDesc_length : longDesc.length = 2100 := by
  rw [longDesc, String.length_mk, List.length_replicate]

theorem isLatin1_append (a b : String) :
    isLatin1 (a ++ b) = (isLatin1 a && isLatin1 b) := by
  simp [isLatin1, String.data_append]

theorem isLatin1_longDesc : isLatin1 longDesc = true := by
  rw [longDesc]
  simp only [isLatin1, List.all_eq_true]
  intro c hc
  simp only [List.mem_replicate] at hc
  rw [hc.2]; decide

theorem minify_sBig : minifyState sBig =
    { sid := "ABC123", v := 2, ts := 5,
      p := [⟨"u1", "Ann", true⟩],
      t := [⟨"t1", "Login", longDesc, 3, "u1"⟩],
      ct := some "t1", vt := [("u1", "5")], ve := true, vr := false } := by
  simp [minifyState, sBig, sC1, compressParticipants, compressTasks,
    compressVotes, jsOrStr_empty]

theorem sBig_len : (stateJsonText sBig).length = 2265 := by
  have e1 : jsonEscape "sid" = "sid" := by decide
  have e2 : jsonEscape "v" = "v" := by decide
  have e3 : jsonEscape "ts" = "ts" := by decide
  have e4 : jsonEscape "p" = "p" := by decide
  have e5 : jsonEscape "t" = "t" := by decide
  have e6 : jsonEscape "ct" = "ct" := by decide
  have e7 : jsonEscape "vt" = "vt" := by decide
  have e8 : jsonEscape "ve" = "ve" := by decide
  have e9 : jsonEscape "vr" = "vr" := by decide
  have e10 : jsonEscape "i" = "i" := by decide
  have e11 : jsonEscape "n" = "n" := by decide
  have e12 : jsonEscape "h" = "h" := by decide
  have e13 : jsonEscape "d" = "d" := by decide
  have e14 : jsonEscape "c" = "c" := by decide
  have e15 : jsonEscape "b" = "b" := by decide
  have e16 : jsonEscape "ABC123" = "ABC123" := by decide
  have e17 : jsonEscape "u1" = "u1" := by decide
  have e18 : jsonEscape "Ann" = "Ann" := by decide
  have e19 : jsonEscape "t1" = "t1" := by decide
  have e20 : jsonEscape "Login" = "Login" := by decide
  have e21 : jsonEscape "5" = "5" := by decide
  rw [stateJsonText, minify_sBig]
  simp only [MinState.toJson, MinPart.toJson, MinTask.toJson, List.map,
    Json.stringify, stringifyObj, stringifyArr, List.cons_append,
    List.nil_append, e1, e2, e3, e4, e5, e6, e7, e8, e9, e10, e11, e12, e13,
    e14, e15, e16, e17, e18, e19, e20, e21, jsonEscape_longDesc]
  simp only [String.length_append, longDesc_length]
  decide

theorem sBig_latin1 : isLatin1 (stateJsonText sBig) = true := by
  have e1 : jsonEscape "sid" = "sid" := by decide
  have e2 : jsonEscape "v" = "v" := by decide
  have e3 : jsonEscape "ts" = "ts" := by decide
  have e4 : jsonEscape "p" = "p" := by decide
  have e5 : jsonEscape "t" = "t" := by decide
  have e6 : jsonEscape "ct" = "ct" := by decide
  have e7 : jsonEscape "vt" = "vt" := by decide
  have e8 : jsonEscape "ve" = "ve" := by decide
  have e9 : jsonEscape "vr" = "vr" := by decide
  have e10 : jsonEscape "i" = "i" := by decide
  have e11 : jsonEscape "n" = "n" := by decide
  have e12 : jsonEscape "h" = "h" := by decide
  have e13 : jsonEscape "d" = "d" := by decide
  have e14 : jsonEscape "c" = "c" := by decide
  have e15 : jsonEscape "b" = "b" := by decide
  have e16 : jsonEscape "ABC123" = "ABC123" := by decide
  have e17 : jsonEscape "u1" = "u1" := by decide
  have e18 : jsonEscape "Ann" = "Ann" := by decide
  have e19 : jsonEscape "t1" = "t1" := by decide
  have e20 : jsonEscape "Login" = "Login" := by decide
  have e21 : jsonEscape "5" = "5" := by decide
  rw [stateJsonText, minify_sBig]
  simp only [MinState.toJson, MinPart.toJson, MinTask.toJson, List.map,
    Json.stringify, stringifyObj, stringifyArr, List.cons_append,
    List.nil_append, e1, e2, e3, e4, e5, e6, e7, e8, e9, e10, e11, e12, e13,
    e14, e15, e16, e17, e18, e19, e20, e21, jsonEscape_longDesc]
  simp only [isLatin1_append, isLatin1_longDesc]
  decide

theorem sBig_compress : compressState sBig = some (minifyState sBig) := by
  rw [compressState, if_pos sBig_latin1]

theorem sBig_tooLarge : isStateTooLarge 30 sBig = true := by
  rw [isStateTooLarge, urlLength, tokenLength, sBig_len]
  decide

theorem expand_compress_participants (l : List (String × Participant))
    (h : ∀ p ∈ l, p.1 = p.2.id) :
    expandParticipants (compressParticipants l) = l := by
  induction l with
  | nil => rfl
  | cons p rest ih =>
      obtain ⟨k, q⟩ := p
      obtain ⟨qi, qn, qh⟩ := q
      have hk : k = qi := by simpa using h (k, ⟨qi, qn, qh⟩) (by simp)
      subst hk
      simp only [compressParticipants, expandParticipants, List.map_cons,
        List.cons.injEq]
      refine ⟨by simp, ?_⟩
      simpa [compressParticipants, expandParticipants] using
        ih (fun p hp => h p (by simp [hp]))

theorem expand_compress_tasks (l : List Poker.Task) :
    expandTasks (compressTasks l) = l := by
  induction l with
  | nil => rfl
  | cons t rest ih =>
      obtain ⟨ti, tt, td, tc, tb⟩ := t
      simp only [compressTasks, expandTasks, List.map_cons, List.cons.injEq]
      refine ⟨by simp [jsOrStr_empty], ?_⟩
      simpa [compressTasks, expandTasks] using ih

theorem mlookup_setDisconnected (l : List (String × FbParticipant))
    (uid : String) (ts : Nat) (p : FbParticipant)
    (hp : mlookup l uid = some p) :
    mlookup (l.map (setDisconnected uid ts)) uid =
      some { p with connected := false, lastSeen := ts } := by
  induction l with
  | nil => cases hp
  | cons q rest ih =>
      obtain ⟨k₀, v₀⟩ := q
      simp only [mlookup] at hp
      by_cases hk : k₀ = uid
      · subst hk
        rw [if_pos rfl] at hp
        rw [Option.some.inj hp]
        have hhead : setDisconnected k₀ ts (k₀, p) =
            (k₀, { p with connected := false, lastSeen := ts }) := by
          simp [setDisconnected]
        rw [List.map_cons, hhead]
        simp [mlookup]
      · rw [if_neg hk] at hp
        have hhead : setDisconnected uid ts (k₀, v₀) = (k₀, v₀) := by
          simp [setDisconnected, hk]
        rw [List.map_cons, hhead]
        simp only [mlookup]
        rw [if_neg hk]
        exact ih hp

theorem countHosts_zero (m : List (String × Participant))
    (h : ∀ p ∈ m, p.2.isHost = false) : countHosts m = 0 := by
  induction m with
  | nil => rfl
  | cons p rest ih =>
      have hh := h p (by simp)
      simp only [countHosts, List.filter_cons, hh, Bool.false_eq_true,
        if_false]
      exact ih (fun q hq => h q (by simp [hq]))

theorem countHosts_inv (c : Participant) (m : List (String × Participant))
    (hc : c.isHost = true) : HostInv c m → countHosts m = 1 := by
  induction m with
  | nil =>
      rintro ⟨hlook, -, -⟩
      cases hlook
  | cons p rest ih =>
      rintro ⟨hlook, hother, hnd⟩
      obtain ⟨k₀, v₀⟩ := p
      simp only [mlookup] at hlook
      rw [show mkeys ((k₀, v₀) :: rest) = k₀ :: mkeys rest from rfl,
        List.nodup_cons] at hnd
      by_cases hk : k₀ = c.id
      · rw [if_pos hk] at hlook
        have hv : v₀ = c := Option.some.inj hlook
        have hrest : countHosts rest = 0 := by
          apply countHosts_zero
          intro q hq
          by_cases hq1 : q.1 = c.id
          · exfalso
            have hmem : q.1 ∈ mkeys rest := List.mem_map_of_mem Prod.fst hq
            rw [hq1, ← hk] at hmem
            exact hnd.1 hmem
          · exact hother q (by simp [hq]) hq1
        simp only [countHosts, List.filter_cons, hv, hc, if_true]
        simpa [countHosts] using hrest
      · rw [if_neg hk] at hlook
        have hh : v₀.isHost = false := hother (k₀, v₀) (by simp) hk
        simp only [countHosts, List.filter_cons, hh, Bool.false_eq_true,
          if_false]
        exact ih ⟨hlook, fun q hq hq1 => hother q (by simp [hq]) hq1, hnd.2⟩

theorem hostInv_applyOp (c : Participant) (s : P2PState) (op : P2POp)
    (hinv : HostInv c s.participants) (hop : opOk c op = true) :
    HostInv c (applyOp s op).participants := by
  obtain ⟨hlook, hother, hnd⟩ := hinv
  cases op with
  | userJoined u =>
      simp only [opOk, Bool.and_eq_true, Bool.not_eq_true', bne_iff_ne] at hop
      obtain ⟨hhost, hne⟩ := hop
      refine ⟨?_, ?_, ?_⟩
      · simpa [applyOp, handleUserJoined]
          using (mlookup_mset_ne s.participants u.id c.id u
            (Ne.symm hne)).trans hlook
      · intro p hp hpne
        rcases mem_mset _ _ _ p (by simpa [applyOp, handleUserJoined] using hp)
          with rfl | hmem
        · exact hhost
        · exact hother p hmem hpne
      · simpa [applyOp, handleUserJoined] using
          mkeys_mset_nodup s.participants u.id u hnd
  | userLeft uid =>
      simp only [opOk, bne_iff_ne] at hop
      refine ⟨?_, ?_, ?_⟩
      · simpa [applyOp, handleUserLeft]
          using (mlookup_mdelete_ne s.participants uid c.id
            (Ne.symm hop)).trans hlook
      · intro p hp hpne
        exact hother p
          (List.mem_of_mem_filter
            (by simpa only [applyOp, handleUserLeft, mdelete] using hp))
          hpne
      · simpa [applyOp, handleUserLeft] using
          (mkeys_mdelete_sublist s.participants uid).nodup hnd

theorem hostInv_applyOps (c : Participant) (ops : List P2POp) :
    ∀ s : P2PState, HostInv c s.participants →
      (∀ op ∈ ops, opOk c op = true) →
      HostInv c (applyOps s ops).participants := by
  induction ops with
  | nil => intro s h _; simpa [applyOps] using h
  | cons op rest ih =>
      intro s h hops
      simp only [applyOps, List.foldl_cons]
      simpa [applyOps] using
        ih (applyOp s op) (hostInv_applyOp c s op h (hops op (by simp)))
          (fun o ho => hops o (by simp [ho]))

/-! ## Claim C1 — Fragment Transport round trip -/

/-- C1 (counterexample): the round trip `decode(encode(state)) == state`
fails on a state whose votes include the coffee card "☕": `JSON.stringify`
emits the character raw (code point 0x2615 > 0xFF), `btoa` throws, and
`compressState` returns null, so no token is produced at all. -/
theorem claim_C1_counterexample :
    compressState sCoffee = none ∧
    (compressState sCoffee).map (decompressState 0) ≠ some sCoffee := by
  decide

/-- C1 (amended): for every state whose serialized JSON is Latin-1 (which
excludes the "☕" card anywhere in the state), whose participant map is keyed
by the records' IDs, and whose version and timestamp are non-zero (both
would otherwise be replaced by the falsy-coalescing `|| 1` /
`|| Date.now()` on decode), the Fragment Transport decode of the encode of
the state equals the original state. -/
theorem claim_C1 (s : FragState) (m : MinState) (now : Nat)
    (hc : compressState s = some m) (hwf : s.wf) :
    decompressState now m = s := by
  have hm : m = minifyState s := by
    rw [compressState] at hc
    split at hc
    · exact (Option.some.inj hc).symm
    · cases hc
  subst hm
  obtain ⟨sid, v, ts, parts, tasks, ct, vts, ve, vr⟩ := s
  obtain ⟨hkeys, hv, hts⟩ := hwf
  simp only [decompressState, expandState, minifyState, compressVotes,
    expandVotes]
  simp [jsOrNat, hv, hts, expand_compress_participants parts hkeys,
    expand_compress_tasks tasks]

/-- C1 (witness): the round trip at a concrete small Latin-1 state. -/
theorem claim_C1_witness : decompressState 99 (minifyState sC1) = sC1 :=
  claim_C1 sC1 (minifyState sC1) 99 (by decide)
    (by unfold FragState.wf; decide)

/-! ## Claim C2 — joinSession session-ID validation -/

/-- C2 (counterexample): the empty string does not match `[A-Z0-9]{6}`, yet
`joinSession` rejects it with the earlier "Please enter a session ID" prompt,
not with the invalid-session-id error thrown by the transport's format
check. -/
theorem claim_C2_counterexample :
    joinSessionValidate "Bob" "" = .rejected .missingSessionId ∧
    JoinOutcome.rejected .missingSessionId ≠
      JoinOutcome.rejected .invalidSessionId ∧
    validSessionIdFormat "" = false := by
  decide

/-- C2 (amended): with a non-empty trimmed name, an input that trims to a
string matching `[A-Z0-9]{6}` passes format validation; a non-empty trimmed
input that does not match fails with `InvalidSessionId` before any remote
call; an input that trims to the empty string is rejected even earlier with
the missing-session-id prompt. -/
theorem claim_C2 (u sIn : String) (hu : jsTrim u ≠ "") :
    (validSessionIdFormat (jsTrim sIn) = true →
      joinSessionValidate u sIn = .formatAccepted (jsTrim sIn)) ∧
    (validSessionIdFormat (jsTrim sIn) = false → jsTrim sIn ≠ "" →
      joinSessionValidate u sIn = .rejected .invalidSessionId) ∧
    (jsTrim sIn = "" →
      joinSessionValidate u sIn = .rejected .missingSessionId) := by
  refine ⟨?_, ?_, ?_⟩
  · intro hfmt
    have hne : jsTrim sIn ≠ "" := by
      intro he
      rw [he] at hfmt
      exact absurd hfmt (by decide)
    simp [joinSessionValidate, hu, hne, hfmt]
  · intro hfmt hne
    simp [joinSessionValidate, hu, hne, hfmt]
  · intro he
    simp [joinSessionValidate, hu, he]

/-- C2 (witness): a lowercase ID is rejected as invalid. -/
theorem claim_C2_witness :
    joinSessionValidate "Bob" " abc123 " = .rejected .invalidSessionId :=
  (claim_C2 "Bob" " abc123 " (by decide)).2.1 (by decide) (by decide)

/-! ## Claim C3 — selectTask resets the round -/

/-- C3 (code bug): the claim-cited `FirebaseMessaging.selectTask` passes its
slash-keyed multi-path object to `set()`, whose client-side key validation
rejects `/` in keys, so on a host's call the operation throws on its first
key and never produces a state with `currentTaskId = taskId`.  The claimed
result is the evident intent: the local P2P coordinator's `selectTask` and
the newer variant's `update()`-based `selectTask` (the same code with
`set` replaced by `update`) both ensure `currentTaskId = taskId`,
`votingEnabled = true`, `votesRevealed = false` and empty votes, with all
other session data preserved. -/
theorem claim_C3 (fb : FbMessaging) (doc : RemoteDoc) (tid : String)
    (s : P2PState) (hf : fb.isHost = true) (hs : s.isHost = true) :
    fbSelectTaskLegacy fb doc tid =
      .error "Invalid key info/currentTaskId" ∧
    SelectTaskResult s (p2pSelectTask s tid) tid ∧
    FbSelectTaskResult doc (fbSelectTask fb doc tid) tid := by
  refine ⟨?_, ?_, ?_⟩
  · rw [fbSelectTaskLegacy, if_neg (by simp [hf])]
    rfl
  · simp [SelectTaskResult, p2pSelectTask, hs]
  · simp [FbSelectTaskResult, fbSelectTask, hf]

/-- C3 (witness): the host selecting task "t2" at a concrete state — the
legacy call throws; the P2P and `update()`-based paths yield the claimed
state. -/
theorem claim_C3_witness :
    fbSelectTaskLegacy demoFbHost demoDoc "t2" =
      .error "Invalid key info/currentTaskId" ∧
    SelectTaskResult hostState (p2pSelectTask hostState "t2") "t2" ∧
    FbSelectTaskResult demoDoc (fbSelectTask demoFbHost demoDoc "t2") "t2" :=
  claim_C3 demoFbHost demoDoc "t2" hostState (by decide) (by decide)

/-! ## Claim C4 — votesRevealed blocks castVote -/

/-- C4: when `votesRevealed` is true, a vote call is rejected before any
transport call and the votes mapping is unchanged — in both the P2P
coordinator (`vote` early-returns) and the simplified Firebase app
(`vote` early-returns before `castVote`). -/
theorem claim_C4 (s : P2PState) (a : FbAppState) (v w : String)
    (hs : s.votesRevealed = true) (ha : a.votesRevealed = true) :
    p2pVote s v = (s, .rejected) ∧ (p2pVote s v).1.votes = s.votes ∧
    fbAppVote a w = (a, .rejected) ∧ (fbAppVote a w).1.votes = a.votes := by
  have h1 : p2pVote s v = (s, .rejected) := by simp [p2pVote, hs]
  have h2 : fbAppVote a w = (a, .rejected) := by simp [fbAppVote, ha]
  exact ⟨h1, by rw [h1], h2, by rw [h2]⟩

/-- C4 (witness): voting after reveal at concrete states. -/
theorem claim_C4_witness :
    p2pVote revealedState "5" = (revealedState, .rejected) ∧
    (p2pVote revealedState "5").1.votes = revealedState.votes ∧
    fbAppVote revealedApp "8" = (revealedApp, .rejected) ∧
    (fbAppVote revealedApp "8").1.votes = revealedApp.votes :=
  claim_C4 revealedState revealedApp "5" "8" (by decide) (by decide)

/-! ## Claim C5 — card-set validation of votes -/

/-- C5 (counterexample): the P2P coordinator performs no card-set validation:
with voting open, `vote("42")` stores the out-of-set value instead of
rejecting it with `InvalidVote`. -/
theorem claim_C5_counterexample :
    ("42" ∉ allowedVotes) ∧
    (p2pVote openState "42").2 = .cast "42" ∧
    mlookup (p2pVote openState "42").1.votes "p1" = some "42" := by
  decide

/-- C5 (amended): only the validated Firebase transport's `castVote` enforces
the card set: a value outside `{1,2,3,5,8,13,21,?,☕}` is rejected with
`InvalidVote` and nothing is written; a value inside the set, with session
and user IDs present, is written at `votes/{userId}`, overwriting any
previous vote by the same participant.  The P2P coordinator's `vote` stores
any value while voting is open. -/
theorem claim_C5 (fb : FbMessaging) (doc : RemoteDoc) (v : String) (ts : Nat)
    (sid uid : String) :
    (v ∉ allowedVotes → fbCastVote fb doc v ts = .error .invalidVote) ∧
    (v ∈ allowedVotes → fb.sessionId = some sid → fb.userId = some uid →
      fbCastVote fb doc v ts =
        .ok ({ doc with votes := mset doc.votes uid ⟨v, ts⟩ }, true) ∧
      mlookup (mset doc.votes uid ⟨v, ts⟩) uid = some ⟨v, ts⟩) := by
  constructor
  · intro hv
    simp [fbCastVote, hv]
  · intro hv hsid huid
    refine ⟨?_, mlookup_mset_self _ _ _⟩
    rw [fbCastVote, if_neg (by simpa using hv), hsid, huid]

/-- C5 (witness): "99" is rejected; "8" is stored for the caller. -/
theorem claim_C5_witness :
    (fbCastVote demoFb demoDoc "99" 7 = .error .invalidVote) ∧
    (fbCastVote demoFb demoDoc "8" 7 =
      .ok ({ demoDoc with votes := mset demoDoc.votes "p1" ⟨"8", 7⟩ }, true) ∧
     mlookup (mset demoDoc.votes "p1" ⟨"8", 7⟩) "p1" = some ⟨"8", 7⟩) :=
  ⟨(claim_C5 demoFb demoDoc "99" 7 "ABC123" "p1").1 (by decide),
   (claim_C5 demoFb demoDoc "8" 7 "ABC123" "p1").2 (by decide) rfl rfl⟩

/-! ## Claim C6 — exactly one host -/

/-- C6 (counterexample): the exactly-one-host invariant fails in the code:
a joining participant's roster holds only their own non-host record (zero
hosts) until a state sync arrives, and `handleUserLeft` hard-deletes the
host's record when the host leaves, again leaving zero hosts. -/
theorem claim_C6_counterexample :
    countHosts (p2pJoinSession "p1" "Bob").participants = 0 ∧
    countHosts (handleUserLeft openState "h1").participants = 0 := by
  decide

/-- C6 (amended): on the creating coordinator the invariant does hold:
after `createSession` and any sequence of `user-joined` messages carrying
non-host users with IDs other than the creator's and `user-left` messages
not naming the creator, exactly one roster entry has `isHost = true`. -/
theorem claim_C6 (userId username : String) (ops : List P2POp)
    (hops : ∀ op ∈ ops, opOk ⟨userId, username, true⟩ op = true) :
    countHosts
      (applyOps (p2pCreateSession userId username) ops).participants = 1 := by
  have hinv : HostInv ⟨userId, username, true⟩
      (p2pCreateSession userId username).participants := by
    refine ⟨by simp [p2pCreateSession, mset, mlookup], ?_, ?_⟩
    · intro p hp hpne
      simp [p2pCreateSession, mset] at hp
      exact absurd (by simp [hp]) hpne
    · simp [p2pCreateSession, mset, mkeys]
  exact countHosts_inv _ _ rfl (hostInv_applyOps _ ops _ hinv hops)

/-- C6 (witness): host creates, a participant joins and leaves. -/
theorem claim_C6_witness :
    countHosts
      (applyOps (p2pCreateSession "h1" "Ann")
        [.userJoined ⟨"p1", "Bob", false⟩, .userLeft "p1"]).participants
      = 1 :=
  claim_C6 "h1" "Ann" _ (by decide)

/-! ## Claim C7 — participant records are never hard-deleted -/

/-- C7 (counterexample): `handleUserLeft` does hard-delete the participant's
record (and their vote) from the P2P coordinator's maps. -/
theorem claim_C7_counterexample :
    mhas openState.participants "p1" = true ∧
    mhas (handleUserLeft openState "p1").participants "p1" = false := by
  decide

/-- C7 (amended): only the Firebase transport keeps records on leave: its
`disconnect` marks the caller's own record `connected = false` (refreshing
`lastSeen`) and removes nothing.  The P2P coordinator instead hard-deletes
the record and the vote on `user-left`, and the cross-browser transport's
presence check deletes timed-out participants from its map before reporting
them as left. -/
theorem claim_C7 (s : P2PState) (uid : String) (doc : RemoteDoc)
    (p : FbParticipant) (ts : Nat) (selfId k : String) (now : Nat)
    (m : List (String × CbmPart)) (cp : CbmPart)
    (hp : mlookup doc.participants uid = some p)
    (hk : k ≠ selfId) (ht : 10000 < now - cp.lastSeen) :
    mlookup (handleUserLeft s uid).participants uid = none ∧
    mlookup (handleUserLeft s uid).votes uid = none ∧
    mlookup (fbDisconnectUpdate doc uid ts).participants uid =
      some { p with connected := false, lastSeen := ts } ∧
    (fbDisconnectUpdate doc uid ts).participants.length =
      doc.participants.length ∧
    (k, cp) ∉ (checkParticipantHealth selfId now m).1 := by
  refine ⟨mlookup_mdelete_self _ _, mlookup_mdelete_self _ _,
    mlookup_setDisconnected _ _ _ _ hp, by simp [fbDisconnectUpdate], ?_⟩
  intro hmem
  simp only [checkParticipantHealth, List.mem_filter, Bool.or_eq_true,
    decide_eq_true_eq] at hmem
  rcases hmem.2 with hh | hh
  · exact hk hh
  · omega

/-- C7 (witness): concrete leave, disconnect and timeout. -/
theorem claim_C7_witness :
    mlookup (handleUserLeft openState "p1").participants "p1" = none ∧
    mlookup (handleUserLeft openState "p1").votes "p1" = none ∧
    mlookup (fbDisconnectUpdate demoDoc "p1" 50).participants "p1" =
      some ⟨"Bob", false, 3, 50, false⟩ ∧
    (fbDisconnectUpdate demoDoc "p1" 50).participants.length =
      demoDoc.participants.length ∧
    ("p1", (⟨"p1", 5, false⟩ : CbmPart)) ∉
      (checkParticipantHealth "h1" 20000 [("p1", ⟨"p1", 5, false⟩)]).1 :=
  claim_C7 openState "p1" demoDoc ⟨"Bob", false, 3, 4, true⟩ 50 "h1" "p1"
    20000 [("p1", ⟨"p1", 5, false⟩)] ⟨"p1", 5, false⟩ (by decide) (by decide)
    (by decide)

/-! ## Claim C8 — fragment import version ordering -/

/-- C8 (counterexample): a token whose version (1) is lower than the
currently held state's version (5) is not discarded: `joinSession` installs
it and delivers it to the coordinator. -/
theorem claim_C8_counterexample :
    mgr5.currentState.map FragState.version = some 5 ∧
    v1State.version = 1 ∧
    fragJoinSession mgr5 (some v1State) =
      .ok (⟨some v1State, false, some "ABC123"⟩, v1State) ∧
    some v1State ≠ mgr5.currentState := by
  refine ⟨by decide, by decide, rfl, by decide⟩

/-- C8 (amended): fragment import performs no version comparison at all:
`joinSession` and `loadFromCurrentURL` install any successfully decoded
state regardless of the held version, and the coordinator's
`handleFragmentStateUpdate` unconditionally replaces roster, tasks, current
task, votes and flags with the token's. -/
theorem claim_C8 (mgr : FragmentManager) (st : FragState) (s : P2PState) :
    fragJoinSession mgr (some st) =
      .ok (⟨some st, false, some st.sessionId⟩, st) ∧
    (loadFromCurrentURL mgr (some st)).1.currentState = some st ∧
    (loadFromCurrentURL mgr (some st)).2 = some st ∧
    (handleFragmentStateUpdate s st).participants = st.participants ∧
    (handleFragmentStateUpdate s st).tasks = st.tasks ∧
    (handleFragmentStateUpdate s st).currentTaskId = st.currentTaskId ∧
    (handleFragmentStateUpdate s st).votes = st.votes ∧
    (handleFragmentStateUpdate s st).votingEnabled = st.votingEnabled ∧
    (handleFragmentStateUpdate s st).votesRevealed = st.votesRevealed := by
  refine ⟨rfl, rfl, rfl, rfl, rfl, rfl, rfl, ?_, ?_⟩ <;>
    simp [handleFragmentStateUpdate]

/-! ## Claim C9 — oversized-state fallback -/

/-- C9 (counterexample): a state whose token (3020 characters) far exceeds
the 2000-character URL ceiling is still encoded at full fidelity: the
2100-character task description survives in the token; no reduced-fidelity
fallback is applied anywhere on the encode path. -/
theorem claim_C9_counterexample :
    isStateTooLarge 30 sBig = true ∧
    compressState sBig = some (minifyState sBig) ∧
    (minifyState sBig).t.map MinTask.d = [longDesc] ∧
    2100 ≤ longDesc.length := by
  refine ⟨sBig_tooLarge, sBig_compress, ?_, by rw [longDesc_length]⟩
  rw [minify_sBig]
  rfl

/-- C9 (amended): the encode path never applies a reduced-fidelity fallback:
even for a state over the ceiling the emitted token is the full minified
state with task descriptions intact.  The `createSimplifiedState` helper —
which does truncate titles to 50 characters, drop descriptions and omit
votes unless revealed — exists in the source but is never invoked by
`updateURL`/`generateShareableURL`. -/
theorem claim_C9 (s : FragState) (m : MinState) (baseLen : Nat)
    (hbig : isStateTooLarge baseLen s = true)
    (hc : compressState s = some m) :
    m = minifyState s ∧ m.t = compressTasks s.tasks ∧
    (∀ t ∈ (createSimplifiedState s).tasks,
      t.description = "" ∧ t.title.length ≤ 50) ∧
    (s.votesRevealed = false → (createSimplifiedState s).votes = []) := by
  have hm : m = minifyState s := by
    rw [compressState] at hc
    split at hc
    · exact (Option.some.inj hc).symm
    · cases hc
  refine ⟨hm, by simp [hm, minifyState], ?_, ?_⟩
  · intro t ht
    simp only [createSimplifiedState, List.mem_map] at ht
    obtain ⟨t₀, -, rfl⟩ := ht
    exact ⟨rfl, by simp [String.length_mk, List.length_take_le]⟩
  · intro hrev
    simp [createSimplifiedState, hrev]

/-- C9 (witness): the amended claim at the oversized concrete state. -/
theorem claim_C9_witness :
    minifyState sBig = minifyState sBig ∧
    (minifyState sBig).t = compressTasks sBig.tasks ∧
    (∀ t ∈ (createSimplifiedState sBig).tasks,
      t.description = "" ∧ t.title.length ≤ 50) ∧
    (sBig.votesRevealed = false → (createSimplifiedState sBig).votes = []) :=
  claim_C9 sBig (minifyState sBig) 30 sBig_tooLarge sBig_compress

/-! ## Claim C10 — the current user survives every snapshot -/

/-- C10: after any inbound snapshot is applied while a current user is set,
the local participants map contains the current user; if the snapshot
omitted them, they are re-inserted with their known name, the local host
flag, `connected = true` and a fresh `lastSeen`. -/
theorem claim_C10 (app : FbAppState) (st : AppSnapshot) (now : Nat)
    (u : Participant) (hu : app.currentUser = some u) :
    mhas (handleStateChange app st now).participants u.id = true ∧
    (mhas st.participants u.id = false →
      mlookup (handleStateChange app st now).participants u.id =
        some ⟨u.id, u.name, app.isHost, true, now⟩) := by
  rw [handleStateChange, hu]
  by_cases h : mhas st.participants u.id = true
  · have hsome : (mlookup st.participants u.id).isSome = true := by
      simpa [mhas] using h
    constructor
    · simp [mhas, hsome]
    · intro hfalse
      rw [h] at hfalse
      cases hfalse
  · have hnone : mlookup st.participants u.id = none := by
      rcases hcase : mlookup st.participants u.id with _ | val
      · rfl
      · exact absurd (by simp [mhas, hcase]) h
    constructor
    · simp [mhas, hnone, mlookup_mset_self]
    · intro _
      simp [mhas, hnone, mlookup_mset_self]

/-- C10 (witness): a snapshot omitting the current user at concrete data. -/
theorem claim_C10_witness :
    mhas (handleStateChange demoApp demoSnapshot 42).participants "p1" =
      true ∧
    (mhas demoSnapshot.participants "p1" = false →
      mlookup (handleStateChange demoApp demoSnapshot 42).participants "p1" =
        some ⟨"p1", "Bob", false, true, 42⟩) :=
  claim_C10 demoApp demoSnapshot 42 partU (by decide)

end Poker
